import Mathlib

/-!
Verification development for the `tuilog` log viewer.

Rust strings are modelled as lists of characters (`Str`); byte positions in
the source correspond to list indices.  Wall-clock instants are modelled as
natural numbers supplied explicitly where the source calls `Local::now()`.
Floating point scroll arithmetic is modelled over `ℚ`.  The external regex
engines (`regex`, `fancy_regex`) are modelled as oracle functions: a boolean
matcher for `regex::Regex::is_match` and a capture oracle for
`fancy_regex::Regex::captures`; concrete literal-substring matchers
instantiate the oracles where concrete runs are needed.
-/

namespace Tuilog

/-- Rust `String` / `&str`, modelled as a list of characters (one list
element per byte of the source's strings). -/
abbrev Str := List Char

/-- Rust `s.trim_end_matches(p)`: remove all trailing characters
satisfying `p`. -/
def trimEndMatches (p : Char → Bool) (s : Str) : Str :=
  (s.reverse.dropWhile p).reverse

/-- Rust `str::trim` on our model: remove leading and trailing spaces and
tabs and newlines (sufficient for the inputs the program trims, which are
single-line query strings). -/
def trimStr (s : Str) : Str :=
  let ws : Char → Bool := fun c => c = ' ' || c = '\t' || c = '\n' || c = '\r'
  (((s.dropWhile ws).reverse.dropWhile ws).reverse)

/-! ## `src/core/log_state.rs` -/

/-- `LogLine` from `src/core/log_state.rs`: an ingest timestamp and the line
content. -/
structure LogLine where
  timestamp : Nat
  content : Str
deriving DecidableEq

/-- `LogState` from `src/core/log_state.rs`. -/
structure LogState where
  lines : List LogLine
  filtered_indices : List Nat
  bottom_line_idx : Nat
  follow_tail : Bool
  last_update_time : Option Nat
deriving DecidableEq

namespace LogState

/-- `LogState::add_line_with_update`.  The source captures `Local::now()`;
the instant is passed explicitly as `now`.  Returns the new index together
with the updated state (the source mutates `self` and returns the index). -/
def add_line_with_update (s : LogState) (content : Str) (now : Nat)
    (update_time : Bool) : Nat × LogState :=
  let line : LogLine := { timestamp := now, content := content }
  let idx := s.lines.length
  let s1 := { s with lines := s.lines ++ [line] }
  let s2 := if update_time then { s1 with last_update_time := some now } else s1
  (idx, s2)

/-- `LogState::add_line`. -/
def add_line (s : LogState) (content : Str) (now : Nat) : Nat × LogState :=
  s.add_line_with_update content now true

end LogState

/-! ## `src/state.rs` -/

/-- JSON values, for the persisted-state document. -/
inductive Json where
  | str (s : Str)
  | bool (b : Bool)
deriving DecidableEq

/-- `AppState` from `src/state.rs`: the struct whose serde serialization is
the persisted query document.  The struct in the source declares exactly
these three fields. -/
structure AppState where
  hide_input : Str
  filter_input : Str
  highlight_input : Str
deriving DecidableEq

namespace AppState

/-- `Default` for `AppState` (derived in the source): empty strings. -/
def defaultState : AppState :=
  { hide_input := [], filter_input := [], highlight_input := [] }

/-- The JSON document written by `AppState::save`: the derived serde
serialization emits exactly the struct's fields, in declaration order. -/
def toJson (s : AppState) : List (String × Json) :=
  [("hide_input", Json.str s.hide_input),
   ("filter_input", Json.str s.filter_input),
   ("highlight_input", Json.str s.highlight_input)]

/-- `AppState::load`: the file contents either parse to a state or not;
missing or malformed file yields the derived `Default`. -/
def load (parsed : Option AppState) : AppState :=
  match parsed with
  | some st => st
  | none => defaultState

end AppState

/-! ## `src/source.rs` — multi-line aggregator -/

/-- The trim applied by `MultilineAggregator::process_line`:
`line.trim_end_matches(['\n', '\r'])`. -/
def trimLineEnd (s : Str) : Str :=
  trimEndMatches (fun c => c = '\n' || c = '\r') s

/-- `MultilineAggregator` state (the channel and regex are externals; the
line-start regex is modelled by the boolean oracle passed to each
operation). -/
structure Aggregator where
  pending : Option Str
deriving DecidableEq

/-- `MultilineAggregator::process_line`, aggregation enabled (`regex` is
`Some`): returns the updated state together with the contents of the
`Line` events sent, in order.  `isStart` is the oracle for
`re.is_match(trimmed)`. -/
def processLine (isStart : Str → Bool) (st : Aggregator) (line : Str) :
    Aggregator × List Str :=
  let trimmed := trimLineEnd line
  if isStart trimmed then
    match st.pending with
    | some pending => ({ pending := some trimmed }, [pending])
    | none => ({ pending := some trimmed }, [])
  else
    match st.pending with
    | some p => ({ pending := some (p ++ '\n' :: trimmed) }, [])
    | none => ({ pending := some trimmed }, [])

/-- `MultilineAggregator::flush`: emit any pending buffer. -/
def flushAgg (st : Aggregator) : Aggregator × List Str :=
  match st.pending with
  | some pending => ({ pending := none }, [pending])
  | none => (st, [])

/-- Process a whole stream of physical lines, collecting every emitted
`Line` event in order. -/
def processAll (isStart : Str → Bool) (st : Aggregator) (ls : List Str) :
    Aggregator × List Str :=
  match ls with
  | [] => (st, [])
  | l :: rest =>
    let (st1, out1) := processLine isStart st l
    let (st2, out2) := processAll isStart st1 rest
    (st2, out1 ++ out2)

/-- A finite input stream followed by `flush`: all emitted `Line` contents,
in order. -/
def runAggregator (isStart : Str → Bool) (ls : List Str) : List Str :=
  let (st, out) := processAll isStart { pending := none } ls
  out ++ (flushAgg st).2

/-! ## Regex oracles

The external engines are modelled as functions.  `fancy_regex`'s
`captures(hay)` returns `Result<Option<Captures>>`; a `Captures` carries the
byte range of the whole match (group 0) and the optional ranges of the
numbered groups, all relative to the haystack. -/

/-- A `fancy_regex::Captures` value: group 0's byte range and the numbered
capture groups (`caps.get(i)` for `i ≥ 1`); `caps.len()` is
`groups.length + 1`. -/
structure Caps where
  full : Nat × Nat
  groups : List (Option (Nat × Nat))
deriving DecidableEq

/-- Oracle for `fancy_regex::Regex::captures` applied to a haystack. -/
abbrev RegexC := Str → Except String (Option Caps)

/-- Oracle for `regex::Regex::is_match` applied to a haystack. -/
abbrev RegexB := Str → Bool

/-- Leftmost occurrence of `pat` as a substring of `hay`. -/
def findSubstring (pat hay : Str) : Option Nat :=
  (List.range (hay.length + 1)).find? (fun i => pat.isPrefixOf (hay.drop i))

/-- The capture oracle a literal (regex-metacharacter-free, group-free)
pattern induces: the leftmost occurrence is group 0 and there are no
capture groups.  This is exactly `fancy_regex::Regex::captures` for such a
pattern. -/
def litRegexC (pat : Str) : RegexC :=
  fun hay =>
    Except.ok ((findSubstring pat hay).map
      (fun i => { full := (i, i + pat.length), groups := [] }))

/-- The boolean oracle of a literal pattern: `regex::Regex::is_match`. -/
def litRegexB (pat : Str) : RegexB :=
  fun hay => (findSubstring pat hay).isSome

/-! ## `src/core/filter_state.rs` — `apply_hide` -/

/-- The match-collection loop of `FilterState::apply_hide`: starting at
`searchStart`, repeatedly run `re.captures` on the remaining haystack,
record the ranges to remove (each capture group when groups exist,
otherwise the full match) in absolute positions, and advance the cursor by
`full_match.end().max(1)`. -/
def hideRanges (re : RegexC) (content : Str) (searchStart : Nat)
    (acc : List (Nat × Nat)) : Except String (List (Nat × Nat)) :=
  if searchStart < content.length then
    match re (content.drop searchStart) with
    | Except.error e => Except.error e
    | Except.ok none => Except.ok acc
    | Except.ok (some caps) =>
      let ranges :=
        if 0 < caps.groups.length then
          caps.groups.filterMap
            (fun g => g.map (fun r => (searchStart + r.1, searchStart + r.2)))
        else
          [(searchStart + caps.full.1, searchStart + caps.full.2)]
      hideRanges re content (searchStart + max caps.full.2 1) (acc ++ ranges)
  else Except.ok acc
termination_by content.length - searchStart
decreasing_by omega

/-- Rust's stable `sort_by_key(|r| r.0)`, realized as a stable insertion
sort on the first component (equal keys keep their input order, as the
stable Rust sort does). -/
def insertByStart (r : Nat × Nat) (l : List (Nat × Nat)) : List (Nat × Nat) :=
  match l with
  | [] => [r]
  | x :: xs => if x.1 < r.1 then x :: insertByStart r xs else r :: x :: xs

/-- Stable sort by range start. -/
def sortByStart (l : List (Nat × Nat)) : List (Nat × Nat) :=
  l.foldr insertByStart []

/-- The overlap-merging pass shared by both display-content derivations:
fold left, extending the last kept range whenever the next range starts at
or before its end. -/
def mergeRanges (ranges : List (Nat × Nat)) : List (Nat × Nat) :=
  ranges.foldl
    (fun merged range =>
      match merged.getLast? with
      | some last =>
        if range.1 ≤ last.2 then merged.dropLast ++ [(last.1, max last.2 range.2)]
        else merged ++ [range]
      | none => merged ++ [range])
    []

/-- The splice pass shared by both display-content derivations: walk the
merged ranges left to right, copying the text between `pos` and each
range's start (when `start > pos` and `start ≤ len`), then skipping to
`min end len`; finally copy the tail. -/
def spliceOut (content : Str) (merged : List (Nat × Nat)) : Str :=
  let step := merged.foldl
    (fun (acc : Str × Nat) r =>
      let kept :=
        if acc.2 < r.1 ∧ r.1 ≤ content.length then
          acc.1 ++ (content.drop acc.2).take (r.1 - acc.2)
        else acc.1
      (kept, min r.2 content.length))
    ([], 0)
  if step.2 < content.length then step.1 ++ content.drop step.2 else step.1

/-- `FilterState::apply_hide` (given the compiled hide regex, if any). -/
def applyHide (hide_regex : Option RegexC) (content : Str) :
    Except String Str :=
  match hide_regex with
  | none => Except.ok content
  | some re =>
    match hideRanges re content 0 [] with
    | Except.error e => Except.error e
    | Except.ok ranges =>
      if ranges.isEmpty then Except.ok content
      else Except.ok (spliceOut content (mergeRanges (sortByStart ranges)))

/-! ## `src/app.rs` — `App::get_display_content` -/

/-- The match-collection loop of `App::get_display_content`.  It differs
from `hideRanges` in two ways, both embedded verbatim from the source: the
cursor update is `search_start += search_start + full_match.end().max(1)`
(doubling the cursor), followed by a dead `if search_start == 0 break`
check; and a captures error breaks out of the loop instead of propagating
an error. -/
def appHideRanges (re : RegexC) (content : Str) (searchStart : Nat)
    (acc : List (Nat × Nat)) : List (Nat × Nat) :=
  if searchStart < content.length then
    match re (content.drop searchStart) with
    | Except.ok (some caps) =>
      let ranges :=
        if 0 < caps.groups.length then
          caps.groups.filterMap
            (fun g => g.map (fun r => (searchStart + r.1, searchStart + r.2)))
        else
          [(searchStart + caps.full.1, searchStart + caps.full.2)]
      let newStart := searchStart + (searchStart + max caps.full.2 1)
      if newStart = 0 then acc ++ ranges
      else appHideRanges re content newStart (acc ++ ranges)
    | _ => acc
  else acc
termination_by content.length - searchStart
decreasing_by omega

/-- `App::get_display_content` (given the compiled hide regex, if any). -/
def appGetDisplayContent (hide_regex : Option RegexC) (content : Str) : Str :=
  match hide_regex with
  | some re =>
    let ranges := appHideRanges re content 0 []
    if ranges.isEmpty then content
    else spliceOut content (mergeRanges (sortByStart ranges))
  | none => content

/-! ## `src/filter.rs` — filter expression language -/

/-- `FilterExpr`: a boolean tree over compiled regex atoms (the atoms are
their `is_match` oracles). -/
inductive FilterExpr where
  | pattern (re : RegexB)
  | and (a b : FilterExpr)
  | or (a b : FilterExpr)
  | not (e : FilterExpr)

/-- `FilterExpr::matches`: short-circuiting boolean evaluation. -/
def FilterExpr.matches : FilterExpr → Str → Bool
  | FilterExpr.pattern re, text => re text
  | FilterExpr.and a b, text => a.matches text && b.matches text
  | FilterExpr.or a b, text => a.matches text || b.matches text
  | FilterExpr.not e, text => !e.matches text

/-- Tokens of the filter language. -/
inductive Token where
  | lparen
  | rparen
  | andTok
  | orTok
  | notTok
  | pattern (p : Str)
deriving DecidableEq

/-- Characters that end a bare atom in `tokenize`'s default branch.  The
source breaks on `( ) & | !` and the space character only; the tab
character is (perhaps unintentionally) not in this set. -/
def bareBreak (c : Char) : Bool :=
  c = '(' || c = ')' || c = '&' || c = '|' || c = '!' || c = ' '

/-- The quoted-atom loop of `tokenize`: consume until the closing quote,
unescaping backslash escapes; returns the payload and the rest of the
input.  A trailing lone backslash consumes the (absent) escaped character
and the loop then hits end of input, i.e. an unterminated string. -/
def takeQuoted (quote : Char) (cs : Str) (acc : Str) :
    Except String (Str × Str) :=
  match cs with
  | [] => Except.error "Unterminated string"
  | c :: rest =>
    if c = quote then Except.ok (acc, rest)
    else if c = '\\' then
      match rest with
      | [] => Except.error "Unterminated string"
      | e :: rest2 => takeQuoted quote rest2 (acc ++ [e])
    else takeQuoted quote rest (acc ++ [c])

theorem length_dropWhile_le_len (p : Char → Bool) (l : Str) :
    (l.dropWhile p).length ≤ l.length := by
  induction l with
  | nil => simp [List.dropWhile]
  | cons c rest ih =>
    simp only [List.dropWhile]
    cases p c <;> simp <;> omega

theorem takeQuoted_rest_lt_aux (quote : Char) :
    ∀ (n : Nat) (cs : Str), cs.length ≤ n → ∀ (acc p rest : Str),
      takeQuoted quote cs acc = Except.ok (p, rest) →
      rest.length < cs.length := by
  intro n
  induction n with
  | zero =>
    intro cs hlen acc p rest h
    match cs with
    | [] => simp [takeQuoted] at h
  | succ n ih =>
    intro cs hlen acc p rest h
    match cs with
    | [] => simp [takeQuoted] at h
    | c :: tail =>
      rw [takeQuoted.eq_def] at h
      simp only at h
      by_cases hq : c = quote
      · simp only [hq, if_true, Except.ok.injEq, Prod.mk.injEq] at h
        rcases h with ⟨h1, h2⟩
        subst h2
        simp
      · simp only [hq, if_false] at h
        by_cases hb : c = '\\'
        · simp only [hb, if_true] at h
          match tail, h with
          | e :: rest2, h =>
            have hr := ih rest2 (by simp at hlen; omega) (acc ++ [e]) p rest h
            simp only [List.length_cons]
            omega
        · simp only [hb, if_false] at h
          have hr := ih tail (by simp at hlen; omega) (acc ++ [c]) p rest h
          simp only [List.length_cons]
          omega

theorem takeQuoted_rest_lt (quote : Char) (cs acc p rest : Str)
    (h : takeQuoted quote cs acc = Except.ok (p, rest)) :
    rest.length < cs.length :=
  takeQuoted_rest_lt_aux quote cs.length cs le_rfl acc p rest h

/-- `tokenize` from `src/filter.rs`.  Whitespace (space or tab) between
tokens is skipped; `&`/`|` must be doubled; quoted atoms are delimited by
`"` or `'`; any other character starts a bare atom that runs until a
character from `bareBreak` (error payloads are abbreviated forms of the
source's messages). -/
def tokenize (cs : Str) : Except String (List Token) :=
  match cs with
  | [] => Except.ok []
  | c :: rest =>
    if c = ' ' ∨ c = '\t' then tokenize rest
    else if c = '(' then (tokenize rest).map (fun ts => Token.lparen :: ts)
    else if c = ')' then (tokenize rest).map (fun ts => Token.rparen :: ts)
    else if c = '&' then
      match rest with
      | '&' :: rest2 => (tokenize rest2).map (fun ts => Token.andTok :: ts)
      | _ => Except.error "Expected double ampersand"
    else if c = '|' then
      match rest with
      | '|' :: rest2 => (tokenize rest2).map (fun ts => Token.orTok :: ts)
      | _ => Except.error "Expected double pipe"
    else if c = '!' then (tokenize rest).map (fun ts => Token.notTok :: ts)
    else if c = '"' ∨ c = '\'' then
      match h : takeQuoted c rest [] with
      | Except.error e => Except.error e
      | Except.ok (p, rem) =>
        (tokenize rem).map (fun ts => Token.pattern p :: ts)
    else
      let pat := (c :: rest).takeWhile (fun ch => !bareBreak ch)
      let remaining := (c :: rest).dropWhile (fun ch => !bareBreak ch)
      (tokenize remaining).map
        (fun ts => if pat.isEmpty then ts else Token.pattern pat :: ts)
termination_by cs.length
decreasing_by
  all_goals (try simp_all)
  all_goals (try omega)
  · have := takeQuoted_rest_lt c rest [] p rem h
    omega
  · rename_i h1 h2 h3 h4 h5 h6 h7
    have hc : (!bareBreak c) = true := by
      simp [bareBreak]
      tauto
    have hdrop : List.dropWhile (fun ch => !bareBreak ch) (c :: rest)
        = List.dropWhile (fun ch => !bareBreak ch) rest := by
      simp [List.dropWhile, hc]
    rw [hdrop]
    have := length_dropWhile_le_len (fun ch => !bareBreak ch) rest
    omega

/-- Compile oracle for `regex::Regex::new` on filter atoms. -/
abbrev CompileB := Str → Except String RegexB

/-!
The recursive-descent parser from `src/filter.rs`.  The Rust recursion is
bounded by the token list; here each parser consumes one unit of fuel per
call and `parse_filter` supplies more fuel than the recursion can ever use
(every cycle through the parsers consumes a token), so the fuel-exhausted
branch is unreachable on the inputs `parse_filter` passes.
-/

mutual

/-- `parse_or`: `and ( "||" and )*`. -/
def parse_or (compile : CompileB) (fuel : Nat) (tokens : List Token)
    (pos : Nat) : Except String (FilterExpr × Nat) :=
  match fuel with
  | 0 => Except.error "parser fuel exhausted"
  | fuel + 1 => do
    let (left, pos1) ← parse_and compile fuel tokens pos
    parse_or_rest compile fuel tokens left pos1

/-- The `while tokens[pos] == Or` loop of `parse_or`. -/
def parse_or_rest (compile : CompileB) (fuel : Nat) (tokens : List Token)
    (left : FilterExpr) (pos : Nat) : Except String (FilterExpr × Nat) :=
  match fuel with
  | 0 => Except.error "parser fuel exhausted"
  | fuel + 1 =>
    if tokens.get? pos = some Token.orTok then do
      let (right, newPos) ← parse_and compile fuel tokens (pos + 1)
      parse_or_rest compile fuel tokens (FilterExpr.or left right) newPos
    else Except.ok (left, pos)

/-- `parse_and`: `unary ( "&&" unary )*`. -/
def parse_and (compile : CompileB) (fuel : Nat) (tokens : List Token)
    (pos : Nat) : Except String (FilterExpr × Nat) :=
  match fuel with
  | 0 => Except.error "parser fuel exhausted"
  | fuel + 1 => do
    let (left, pos1) ← parse_unary compile fuel tokens pos
    parse_and_rest compile fuel tokens left pos1

/-- The `while tokens[pos] == And` loop of `parse_and`. -/
def parse_and_rest (compile : CompileB) (fuel : Nat) (tokens : List Token)
    (left : FilterExpr) (pos : Nat) : Except String (FilterExpr × Nat) :=
  match fuel with
  | 0 => Except.error "parser fuel exhausted"
  | fuel + 1 =>
    if tokens.get? pos = some Token.andTok then do
      let (right, newPos) ← parse_unary compile fuel tokens (pos + 1)
      parse_and_rest compile fuel tokens (FilterExpr.and left right) newPos
    else Except.ok (left, pos)

/-- `parse_unary`: `"!" unary | primary`. -/
def parse_unary (compile : CompileB) (fuel : Nat) (tokens : List Token)
    (pos : Nat) : Except String (FilterExpr × Nat) :=
  match fuel with
  | 0 => Except.error "parser fuel exhausted"
  | fuel + 1 =>
    if tokens.length ≤ pos then Except.error "Unexpected end of expression"
    else if tokens.get? pos = some Token.notTok then do
      let (expr, newPos) ← parse_unary compile fuel tokens (pos + 1)
      Except.ok (FilterExpr.not expr, newPos)
    else parse_primary compile fuel tokens pos

/-- `parse_primary`: `"(" or ")" | atom`; an atom's payload is compiled
through the `regex::Regex::new` oracle. -/
def parse_primary (compile : CompileB) (fuel : Nat) (tokens : List Token)
    (pos : Nat) : Except String (FilterExpr × Nat) :=
  match fuel with
  | 0 => Except.error "parser fuel exhausted"
  | fuel + 1 =>
    if tokens.length ≤ pos then Except.error "Unexpected end of expression"
    else
      match tokens.get? pos with
      | some Token.lparen => do
        let (expr, newPos) ← parse_or compile fuel tokens (pos + 1)
        if tokens.get? newPos = some Token.rparen then
          Except.ok (expr, newPos + 1)
        else Except.error "Missing closing parenthesis"
      | some (Token.pattern p) =>
        match compile p with
        | Except.ok re => Except.ok (FilterExpr.pattern re, pos + 1)
        | Except.error e => Except.error ("Invalid regex: " ++ e)
      | _ => Except.error "Unexpected token"

end

/-- `parse_filter`: trim, reject empty input, tokenize, parse at top
precedence and require all tokens consumed. -/
def parse_filter (compile : CompileB) (input : Str) :
    Except String FilterExpr :=
  let input := trimStr input
  if input.isEmpty then Except.error "Empty filter expression"
  else
    match tokenize input with
    | Except.error e => Except.error e
    | Except.ok tokens =>
      match parse_or compile (4 * tokens.length + 8) tokens 0 with
      | Except.error e => Except.error e
      | Except.ok (expr, pos) =>
        if pos ≠ tokens.length then
          Except.error ("Unexpected token at position " ++ toString pos)
        else Except.ok expr

/-! ## `src/core/filter_state.rs` — `FilterState` -/

/-- `FilterState`: the three optional compiled artifacts. -/
structure FilterState where
  hide_regex : Option RegexC
  filter_expr : Option FilterExpr
  highlight_expr : Option FilterExpr

/-- `FilterState::default`. -/
def FilterState.defaultFS : FilterState :=
  { hide_regex := none, filter_expr := none, highlight_expr := none }

/-- `FilterState::apply_hide` as a method. -/
def FilterState.apply_hide (fs : FilterState) (content : Str) :
    Except String Str :=
  applyHide fs.hide_regex content

/-- `FilterState::matches_filter`. -/
def FilterState.matches_filter (fs : FilterState) (content : Str) : Bool :=
  match fs.filter_expr with
  | some expr => expr.matches content
  | none => true

/-! ## `src/gui/state.rs` — `GuiAppState`

`f64` scroll and height arithmetic is modelled over `ℚ`; `u64`/`usize`
counters over `ℕ`. -/

/-- Compile oracle for `fancy_regex::Regex::new` (the hide box). -/
abbrev CompileC := Str → Except String RegexC

/-- `LINE_HEIGHT`: the default estimated line height, 20px. -/
def LINE_HEIGHT : ℚ := 20

/-- `GuiAppState`. -/
structure GuiAppState where
  lines : List LogLine
  filtered_indices : List Nat
  filter_state : FilterState
  follow_tail : Bool
  show_time : Bool
  wrap_lines : Bool
  hide_text : Str
  filter_text : Str
  highlight_text : Str
  line_start_text : Str
  hide_error : Option String
  filter_error : Option String
  line_start_error : Option String
  status_message : Option String
  is_connected : Bool
  scroll_y : ℚ
  scroll_x : ℚ
  container_height : ℚ
  container_width : ℚ
  max_content_width : ℚ
  version : Nat
  line_heights : List ℚ
  line_offsets : List ℚ
  last_update_time : Option Nat

namespace GuiAppState

/-- `GuiAppState::get_display_content`. -/
def get_display_content (s : GuiAppState) (line : LogLine) :
    Except String Str :=
  s.filter_state.apply_hide line.content

/-- `GuiAppState::matches_filter`: the display content (falling back to the
raw content on a hide error) run through the filter expression. -/
def matches_filter (s : GuiAppState) (line : LogLine) : Bool :=
  let content :=
    match s.get_display_content line with
    | Except.ok c => c
    | Except.error _ => line.content
  s.filter_state.matches_filter content

/-- The scan loop of `rebuild_filtered_indices`: every index whose line
passes `matches_filter`, in order. -/
def computedIndices (s : GuiAppState) : List Nat :=
  (s.lines.foldl
    (fun (acc : List Nat × Nat) line =>
      (if s.matches_filter line then acc.1 ++ [acc.2] else acc.1, acc.2 + 1))
    ([], 0)).1

/-- `rebuild_offsets` on a heights vector: the running prefix sums followed
by the final total. -/
def rebuildOffsetsFrom (heights : List ℚ) : List ℚ :=
  let step := heights.foldl
    (fun (acc : List ℚ × ℚ) h => (acc.1 ++ [acc.2], acc.2 + h)) ([], 0)
  step.1 ++ [step.2]

/-- `GuiAppState::rebuild_offsets`. -/
def rebuild_offsets (s : GuiAppState) : GuiAppState :=
  { s with line_offsets := rebuildOffsetsFrom s.line_heights }

/-- `GuiAppState::reset_line_heights`. -/
def reset_line_heights (s : GuiAppState) : GuiAppState :=
  ({ s with
      line_heights := List.replicate s.filtered_indices.length LINE_HEIGHT
   }).rebuild_offsets

/-- `GuiAppState::total_height`: the last offset, or 0. -/
def total_height (s : GuiAppState) : ℚ :=
  (s.line_offsets.getLast?).getD 0

/-- `GuiAppState::max_scroll`:
`(total_height - container_height + LINE_HEIGHT).max(0.0)`. -/
def max_scroll (s : GuiAppState) : ℚ :=
  max (s.total_height - s.container_height + LINE_HEIGHT) 0

/-- Rust `f64::clamp(lo, hi)` (for `lo ≤ hi`). -/
def clampQ (x lo hi : ℚ) : ℚ :=
  if x < lo then lo else if hi < x then hi else x

/-- `GuiAppState::clamp_scroll`. -/
def clamp_scroll (s : GuiAppState) : GuiAppState :=
  { s with scroll_y := clampQ s.scroll_y 0 s.max_scroll }

/-- `GuiAppState::rebuild_filtered_indices`: rescan the buffer, reset the
height model, clamp the scroll and bump the version. -/
def rebuild_filtered_indices (s : GuiAppState) : GuiAppState :=
  let s1 := { s with filtered_indices := s.computedIndices }
  let s2 := s1.reset_line_heights
  let s3 := s2.clamp_scroll
  { s3 with version := s3.version + 1 }

/-- `GuiAppState::save_state` writes the persisted query file; it does not
change the in-memory state. -/
def save_state (s : GuiAppState) : GuiAppState := s

/-- `GuiAppState::apply_hide`. -/
def apply_hide (s : GuiAppState) (compileC : CompileC) : GuiAppState :=
  if (trimStr s.hide_text).isEmpty then
    let s1 := { s with
      filter_state := { s.filter_state with hide_regex := none },
      hide_error := none }
    s1.rebuild_filtered_indices.save_state
  else
    match compileC s.hide_text with
    | Except.ok re =>
      let s1 := { s with
        filter_state := { s.filter_state with hide_regex := some re },
        hide_error := none }
      s1.rebuild_filtered_indices.save_state
    | Except.error e => { s with hide_error := some e }

/-- `GuiAppState::apply_filter`. -/
def apply_filter (s : GuiAppState) (compileB : CompileB) : GuiAppState :=
  if (trimStr s.filter_text).isEmpty then
    let s1 := { s with
      filter_state := { s.filter_state with filter_expr := none },
      filter_error := none }
    s1.rebuild_filtered_indices.save_state
  else
    match parse_filter compileB s.filter_text with
    | Except.ok expr =>
      let s1 := { s with
        filter_state := { s.filter_state with filter_expr := some expr },
        filter_error := none }
      s1.rebuild_filtered_indices.save_state
    | Except.error e => { s with filter_error := some e }

/-- `GuiAppState::apply_highlight`: on a parse failure the previous
expression is silently kept (there is no highlight error field and no
early return); the version is bumped and the state saved in every case. -/
def apply_highlight (s : GuiAppState) (compileB : CompileB) : GuiAppState :=
  let s1 :=
    if (trimStr s.highlight_text).isEmpty then
      { s with filter_state := { s.filter_state with highlight_expr := none } }
    else
      match parse_filter compileB s.highlight_text with
      | Except.ok expr =>
        { s with
          filter_state := { s.filter_state with highlight_expr := some expr } }
      | Except.error _ => s
  ({ s1 with version := s1.version + 1 }).save_state

/-- `GuiAppState::estimate_line_width`. -/
def estimate_line_width (s : GuiAppState) (line : LogLine) : ℚ :=
  let content :=
    match s.get_display_content line with
    | Except.ok c => c
    | Except.error _ => line.content
  let char_width : ℚ := 36 / 5
  let timestamp_width : ℚ := if s.show_time then 32 else 0
  let line_num_width : ℚ := 62
  let padding : ℚ := 24
  timestamp_width + line_num_width + (content.length : ℚ) * char_width + padding

/-- The content trim in `GuiAppState::add_line_with_update`:
`trim_end_matches('\n').trim_end_matches('\r')`. -/
def guiTrimContent (s : Str) : Str :=
  trimEndMatches (fun c => c = '\r') (trimEndMatches (fun c => c = '\n') s)

/-- `GuiAppState::add_line_with_update`.  `now` stands for the
`chrono::Local::now()` instant. -/
def add_line_with_update (s : GuiAppState) (content : Str) (now : Nat)
    (update_time : Bool) : GuiAppState :=
  let line : LogLine := { content := guiTrimContent content, timestamp := now }
  let idx := s.lines.length
  let matchesB := s.matches_filter line
  let estimated_width := s.estimate_line_width line
  let s1 :=
    if s.max_content_width < estimated_width then
      { s with max_content_width := estimated_width }
    else s
  let s2 := { s1 with lines := s1.lines ++ [line] }
  let s3 := if update_time then { s2 with last_update_time := some now } else s2
  if matchesB then
    let s4 := { s3 with filtered_indices := s3.filtered_indices ++ [idx] }
    let s5 :=
      if s4.line_offsets.isEmpty then { s4 with line_offsets := [0] } else s4
    let current_total := (s5.line_offsets.getLast?).getD 0
    { s5 with
      line_heights := s5.line_heights ++ [LINE_HEIGHT],
      line_offsets := s5.line_offsets ++ [current_total + LINE_HEIGHT] }
  else s3

/-- `GuiAppState::add_line`. -/
def add_line (s : GuiAppState) (content : Str) (now : Nat) : GuiAppState :=
  s.add_line_with_update content now true

/-- `GuiAppState::clear`. -/
def clear (s : GuiAppState) : GuiAppState :=
  { s with
    lines := [], filtered_indices := [], line_heights := [],
    line_offsets := [0], scroll_y := 0, scroll_x := 0,
    max_content_width := 0, version := s.version + 1,
    last_update_time := none }

/-- `GuiAppState::scroll_to_bottom`. -/
def scroll_to_bottom (s : GuiAppState) : GuiAppState :=
  { s with scroll_y := s.max_scroll }

/-- `GuiAppState::is_at_bottom`. -/
def is_at_bottom (s : GuiAppState) : Bool :=
  s.max_scroll - 1 ≤ s.scroll_y

end GuiAppState

/-! ## Theorems -/

/-- C9: `LogState::add_line_with_update(content, false)` appends a new
`LogLine` at index equal to the previous length and returns that index,
leaving `last_update_time` unchanged; with `true` it additionally sets
`last_update_time` to the new line's timestamp; `filtered_indices`,
`bottom_line_idx` and `follow_tail` are unchanged by both. -/
theorem add_line_with_update_c9 (s : LogState) (content : Str) (now : Nat) :
    ((s.add_line_with_update content now false).1 = s.lines.length ∧
      (s.add_line_with_update content now false).2.lines
        = s.lines ++ [{ timestamp := now, content := content }] ∧
      (s.add_line_with_update content now false).2.last_update_time
        = s.last_update_time ∧
      (s.add_line_with_update content now false).2.filtered_indices
        = s.filtered_indices ∧
      (s.add_line_with_update content now false).2.bottom_line_idx
        = s.bottom_line_idx ∧
      (s.add_line_with_update content now false).2.follow_tail
        = s.follow_tail) ∧
    ((s.add_line_with_update content now true).1 = s.lines.length ∧
      (s.add_line_with_update content now true).2.lines
        = s.lines ++ [{ timestamp := now, content := content }] ∧
      (s.add_line_with_update content now true).2.last_update_time
        = some now ∧
      (s.add_line_with_update content now true).2.filtered_indices
        = s.filtered_indices ∧
      (s.add_line_with_update content now true).2.bottom_line_idx
        = s.bottom_line_idx ∧
      (s.add_line_with_update content now true).2.follow_tail
        = s.follow_tail) := by
  simp [LogState.add_line_with_update]

/-- C6: the persisted query document written by `AppState::save` carries
exactly the fields `hide_input`, `filter_input`, `highlight_input` — the
struct in `src/state.rs` has no `wrap_lines` or `line_start_regex` field —
and `load` falls back to the derived defaults (empty strings) when the
file is missing or malformed. -/
theorem appstate_persisted_fields_c6 (s : AppState) :
    (AppState.toJson s).map Prod.fst
      = ["hide_input", "filter_input", "highlight_input"] ∧
    "wrap_lines" ∉ (AppState.toJson s).map Prod.fst ∧
    "line_start_regex" ∉ (AppState.toJson s).map Prod.fst ∧
    AppState.load none = AppState.defaultState := by
  simp [AppState.toJson, AppState.load]

/-- Rust `clamp(lo, hi)` stays within `[lo, hi]` when `lo ≤ hi`. -/
theorem clampQ_bounds (x lo hi : ℚ) (h : lo ≤ hi) :
    lo ≤ GuiAppState.clampQ x lo hi ∧ GuiAppState.clampQ x lo hi ≤ hi := by
  unfold GuiAppState.clampQ
  split
  · exact ⟨le_refl lo, h⟩
  · split
    · exact ⟨h, le_refl hi⟩
    · constructor <;> linarith [not_lt.mp (by assumption : ¬x < lo)]

/-- `max_scroll` is nonnegative. -/
theorem max_scroll_nonneg (s : GuiAppState) : 0 ≤ s.max_scroll := by
  unfold GuiAppState.max_scroll
  exact le_max_right _ _

/-- C4 (amended): after each of `clamp_scroll`, `rebuild_filtered_indices`,
`clear` and `scroll_to_bottom`, the scroll position satisfies
`0 ≤ scroll_y ≤ max(0, total_height − container_height + LINE_HEIGHT)`
(the code's `max_scroll` adds `LINE_HEIGHT` to the bound the claim
states). -/
theorem scroll_bound_after_ops_c4 (s : GuiAppState) :
    (0 ≤ s.clamp_scroll.scroll_y ∧
      s.clamp_scroll.scroll_y
        ≤ max 0 (s.clamp_scroll.total_height
            - s.clamp_scroll.container_height + LINE_HEIGHT)) ∧
    (0 ≤ s.rebuild_filtered_indices.scroll_y ∧
      s.rebuild_filtered_indices.scroll_y
        ≤ max 0 (s.rebuild_filtered_indices.total_height
            - s.rebuild_filtered_indices.container_height + LINE_HEIGHT)) ∧
    (0 ≤ s.clear.scroll_y ∧
      s.clear.scroll_y
        ≤ max 0 (s.clear.total_height
            - s.clear.container_height + LINE_HEIGHT)) ∧
    (0 ≤ s.scroll_to_bottom.scroll_y ∧
      s.scroll_to_bottom.scroll_y
        ≤ max 0 (s.scroll_to_bottom.total_height
            - s.scroll_to_bottom.container_height + LINE_HEIGHT)) := by
  refine ⟨?_, ?_, ?_, ?_⟩
  · have h := clampQ_bounds s.scroll_y 0 s.max_scroll (max_scroll_nonneg s)
    refine ⟨h.1, le_trans h.2 ?_⟩
    simp [GuiAppState.clamp_scroll, GuiAppState.max_scroll,
      GuiAppState.total_height, max_comm]
  · set s2 := ({ s with filtered_indices := s.computedIndices
      : GuiAppState }).reset_line_heights with hs2
    have h := clampQ_bounds s2.scroll_y 0 s2.max_scroll (max_scroll_nonneg s2)
    refine ⟨h.1, le_trans h.2 ?_⟩
    simp [GuiAppState.rebuild_filtered_indices, GuiAppState.clamp_scroll,
      GuiAppState.max_scroll, GuiAppState.total_height, max_comm, hs2]
  · refine ⟨le_refl 0, le_max_left 0 _⟩
  · refine ⟨max_scroll_nonneg s, ?_⟩
    simp [GuiAppState.scroll_to_bottom, GuiAppState.max_scroll,
      GuiAppState.total_height, max_comm]

/-- A concrete viewport state: two 20px lines (total height 40) in a 30px
container. -/
def cexViewport : GuiAppState :=
  { lines := [], filtered_indices := [], filter_state := FilterState.defaultFS,
    follow_tail := true, show_time := true, wrap_lines := false,
    hide_text := [], filter_text := [], highlight_text := [],
    line_start_text := [], hide_error := none, filter_error := none,
    line_start_error := none, status_message := none, is_connected := false,
    scroll_y := 0, scroll_x := 0, container_height := 30,
    container_width := 800, max_content_width := 0, version := 0,
    line_heights := [20, 20], line_offsets := [0, 20, 40],
    last_update_time := none }

/-- C4 counterexample: with total height 40 and container height 30,
`scroll_to_bottom` sets `scroll_y = 30`, which exceeds the claimed bound
`max(0, total_height − container_height) = 10`. -/
theorem scroll_bound_cex_c4 :
    ¬ (cexViewport.scroll_to_bottom.scroll_y
        ≤ max 0 (cexViewport.scroll_to_bottom.total_height
            - cexViewport.scroll_to_bottom.container_height)) := by
  norm_num [cexViewport, GuiAppState.scroll_to_bottom, GuiAppState.max_scroll,
    GuiAppState.total_height, LINE_HEIGHT, List.getLast?]

/-! ### C10 — multi-line aggregator -/

/-- Split on newline characters: the inverse of the aggregator's
`'\n'`-joining of physical lines into one logical record. -/
def splitOnNl (s : Str) : List Str :=
  match s with
  | [] => [[]]
  | c :: rest =>
    if c = '\n' then [] :: splitOnNl rest
    else
      match splitOnNl rest with
      | h :: t => (c :: h) :: t
      | [] => [[c]]

theorem splitOnNl_ne_nil (s : Str) : splitOnNl s ≠ [] := by
  match s with
  | [] => simp [splitOnNl]
  | c :: rest =>
    simp only [splitOnNl]
    split
    · simp
    · split <;> simp

theorem splitOnNl_no_nl (s : Str) (h : '\n' ∉ s) : splitOnNl s = [s] := by
  induction s with
  | nil => simp [splitOnNl]
  | cons c rest ih =>
    simp only [splitOnNl]
    have hc : ¬c = '\n' := fun hc => h (hc ▸ List.mem_cons_self c rest)
    rw [if_neg hc, ih (fun hm => h (List.mem_cons_of_mem c hm))]

theorem splitOnNl_append_nl (a b : Str) :
    splitOnNl (a ++ '\n' :: b) = splitOnNl a ++ splitOnNl b := by
  induction a with
  | nil => simp [splitOnNl]
  | cons c a ih =>
    simp only [List.cons_append, splitOnNl, List.append_eq]
    by_cases hc : c = '\n'
    · rw [if_pos hc, if_pos hc, ih]
      simp
    · rw [if_neg hc, if_neg hc, ih]
      cases hsa : splitOnNl a with
      | nil => exact absurd hsa (splitOnNl_ne_nil a)
      | cons h1 t1 => simp

/-- The logical lines currently held in the pending buffer. -/
def pendSplit (a : Aggregator) : List Str :=
  match a.pending with
  | some s => splitOnNl s
  | none => []

theorem processLine_split (isStart : Str → Bool) (st : Aggregator) (l : Str)
    (hl : '\n' ∉ trimLineEnd l) :
    ((processLine isStart st l).2.flatMap splitOnNl)
      ++ pendSplit (processLine isStart st l).1
    = pendSplit st ++ [trimLineEnd l] := by
  unfold processLine
  by_cases hs : isStart (trimLineEnd l)
  · rw [if_pos hs]
    cases hp : st.pending <;>
      simp [pendSplit, hp, splitOnNl_no_nl _ hl]
  · rw [if_neg hs]
    cases hp : st.pending
    · simp [pendSplit, hp, splitOnNl_no_nl _ hl]
    · simp [pendSplit, hp, splitOnNl_append_nl, splitOnNl_no_nl _ hl]

theorem processAll_split (isStart : Str → Bool) :
    ∀ (ls : List Str) (st : Aggregator),
      (∀ l ∈ ls, '\n' ∉ trimLineEnd l) →
      ((processAll isStart st ls).2.flatMap splitOnNl)
        ++ pendSplit (processAll isStart st ls).1
      = pendSplit st ++ ls.map trimLineEnd := by
  intro ls
  induction ls with
  | nil => intro st h; simp [processAll]
  | cons l rest ih =>
    intro st h
    have hl : '\n' ∉ trimLineEnd l := h l (List.mem_cons_self l rest)
    have hrest : ∀ x ∈ rest, '\n' ∉ trimLineEnd x :=
      fun x hx => h x (List.mem_cons_of_mem l hx)
    rcases hpl : processLine isStart st l with ⟨st1, out1⟩
    rcases hpa : processAll isStart st1 rest with ⟨st2, out2⟩
    have step := processLine_split isStart st l hl
    rw [hpl] at step
    have tail := ih st1 hrest
    rw [hpa] at tail
    simp only [processAll, hpl, hpa, List.map_cons]
    calc ((out1 ++ out2).flatMap splitOnNl) ++ pendSplit st2
        = out1.flatMap splitOnNl ++ ((out2.flatMap splitOnNl) ++ pendSplit st2) := by
          simp [List.append_assoc]
      _ = out1.flatMap splitOnNl ++ (pendSplit st1 ++ rest.map trimLineEnd) := by
          rw [tail]
      _ = (out1.flatMap splitOnNl ++ pendSplit st1) ++ rest.map trimLineEnd := by
          simp [List.append_assoc]
      _ = (pendSplit st ++ [trimLineEnd l]) ++ rest.map trimLineEnd := by
          rw [step]
      _ = pendSplit st ++ (trimLineEnd l :: rest.map trimLineEnd) := by
          simp

/-- C10: with aggregation enabled, a non-matching line with an empty
pending buffer begins a new pending buffer instead of being dropped, and
for every finite input stream followed by flush, splitting the emitted
records at the `'\n'` joints recovers exactly the trimmed physical lines,
in input order (each line appears in exactly one emitted record). -/
theorem aggregator_round_trip_c10 (isStart : Str → Bool) (ls : List Str)
    (h : ∀ l ∈ ls, '\n' ∉ trimLineEnd l) :
    (runAggregator isStart ls).flatMap splitOnNl = ls.map trimLineEnd ∧
    ∀ l, isStart (trimLineEnd l) = false →
      processLine isStart { pending := none } l
        = ({ pending := some (trimLineEnd l) }, []) := by
  constructor
  · unfold runAggregator
    rcases hpa : processAll isStart { pending := none } ls with ⟨st, out⟩
    have key := processAll_split isStart ls { pending := none } h
    rw [hpa] at key
    simp only [pendSplit, List.nil_append] at key
    cases hst : st.pending with
    | none =>
      rw [hst] at key
      simpa [flushAgg, hst] using key
    | some p =>
      rw [hst] at key
      simp only [flushAgg, hst]
      simpa [List.append_assoc] using key
  · intro l hfalse
    simp [processLine, hfalse]

/-- Line-start predicate for the concrete witness run: a record starts at a
line beginning with `S`. -/
def startsWithS : Str → Bool :=
  fun s => s.headD ' ' = 'S'

/-- Concrete input stream for the witness: `S1`, a continuation `a`,
then `S2`, each with a trailing newline. -/
def demoLines : List Str :=
  [['S', '1', '\n'], ['a', '\n'], ['S', '2', '\n']]

/-- C10 witness: the round trip evaluated on the concrete stream. -/
theorem aggregator_round_trip_c10_witness :
    (runAggregator startsWithS demoLines).flatMap splitOnNl
      = demoLines.map trimLineEnd ∧
    ∀ l, startsWithS (trimLineEnd l) = false →
      processLine startsWithS { pending := none } l
        = ({ pending := some (trimLineEnd l) }, []) :=
  aggregator_round_trip_c10 startsWithS demoLines (by decide)

/-! ## `src/highlight.rs` — `apply_highlights`

`Style` values are abstract (the composition only copies and compares
them), so the development is parametric in the style type. -/

/-- A highlight `Span`: byte offsets into the display content, a style and
a priority (the source's `end` field is called `stop`, `end` being a Lean
keyword). -/
structure Span (σ : Type) where
  start : Nat
  stop : Nat
  style : σ
  priority : Nat

/-- `char_to_byte_pos`: on the byte-per-element `Str` model,
`char_indices().nth(p)` is `p` when `p < len` with fallback `len`;
composed with `.min(len)` this is `min p len`. -/
def char_to_byte_pos (t : Str) (charPos : Nat) : Nat :=
  min charPos t.length

/-- One span's pass over the priority array: for each index in the span's
converted range, overwrite the cell iff the span's priority is at least
the resident priority. -/
def paintSpan {σ : Type} (t : Str) (sa : List (σ × Nat)) (sp : Span σ) :
    List (σ × Nat) :=
  let start := char_to_byte_pos t sp.start
  let stop := min (char_to_byte_pos t sp.stop) t.length
  sa.mapIdx (fun i cell =>
    if start ≤ i ∧ i < stop ∧ cell.2 ≤ sp.priority then (sp.style, sp.priority)
    else cell)

/-- The `style_at` array of `apply_highlights`: default style and priority
0 everywhere, then every span painted in order. -/
def buildStyleAt {σ : Type} [Inhabited σ] (t : Str) (spans : List (Span σ)) :
    List (σ × Nat) :=
  spans.foldl (paintSpan t) (List.replicate t.length ((default : σ), 0))

/-- The inner `while` of the run-emission loop: the first position at or
after `e` whose resident style differs from `cur` (or the end of text). -/
def runEnd {σ : Type} [DecidableEq σ] [Inhabited σ] (t : Str)
    (sa : List (σ × Nat)) (cur : σ) (e : Nat) : Nat :=
  if h : e < t.length ∧ (sa.getD e ((default : σ), 0)).1 = cur then
    runEnd t sa cur (e + 1)
  else e
termination_by t.length - e
decreasing_by omega

theorem runEnd_ge_aux {σ : Type} [DecidableEq σ] [Inhabited σ] (t : Str)
    (sa : List (σ × Nat)) (cur : σ) :
    ∀ (n e : Nat), t.length - e ≤ n → e ≤ runEnd t sa cur e := by
  intro n
  induction n with
  | zero =>
    intro e h
    rw [runEnd.eq_def]
    split
    · rename_i hcond
      omega
    · exact le_refl e
  | succ n ih =>
    intro e h
    rw [runEnd.eq_def]
    split
    · rename_i hcond
      have h2 := ih (e + 1) (by omega)
      exact le_trans (Nat.le_succ e) h2
    · exact le_refl e

theorem runEnd_ge {σ : Type} [DecidableEq σ] [Inhabited σ] (t : Str)
    (sa : List (σ × Nat)) (cur : σ) (e : Nat) : e ≤ runEnd t sa cur e :=
  runEnd_ge_aux t sa cur (t.length - e) e le_rfl

/-- The outer run-emission loop of `apply_highlights`: emit maximal runs of
equal style as `(substring, style)` segments. -/
def emitRuns {σ : Type} [DecidableEq σ] [Inhabited σ] (t : Str)
    (sa : List (σ × Nat)) (pos : Nat) : List (Str × σ) :=
  if h : pos < t.length then
    let cur := (sa.getD pos ((default : σ), 0)).1
    let e := runEnd t sa cur (pos + 1)
    ((t.drop pos).take (e - pos), cur) :: emitRuns t sa e
  else []
termination_by t.length - pos
decreasing_by
  have := runEnd_ge t sa ((sa.getD pos ((default : σ), 0)).1) (pos + 1)
  omega

theorem emitRuns_join_aux {σ : Type} [DecidableEq σ] [Inhabited σ] (t : Str)
    (sa : List (σ × Nat)) :
    ∀ (n pos : Nat), t.length - pos ≤ n →
      ((emitRuns t sa pos).map Prod.fst).flatten = t.drop pos := by
  intro n
  induction n with
  | zero =>
    intro pos h
    rw [emitRuns.eq_def, dif_neg (by omega : ¬pos < t.length)]
    simp [List.drop_eq_nil_of_le (by omega : t.length ≤ pos)]
  | succ n ih =>
    intro pos h
    rw [emitRuns.eq_def]
    by_cases hp : pos < t.length
    · rw [dif_pos hp]
      have hge := runEnd_ge t sa ((sa.getD pos ((default : σ), 0)).1) (pos + 1)
      simp only [List.map_cons, List.flatten_cons]
      rw [ih (runEnd t sa ((sa.getD pos ((default : σ), 0)).1) (pos + 1))
          (by omega)]
      have hdd : t.drop (runEnd t sa ((sa.getD pos ((default : σ), 0)).1)
          (pos + 1))
          = (t.drop pos).drop
              ((runEnd t sa ((sa.getD pos ((default : σ), 0)).1) (pos + 1))
                - pos) := by
        rw [List.drop_drop]
        congr 1
        omega
      rw [hdd, List.take_append_drop]
    · rw [dif_neg hp]
      simp [List.drop_eq_nil_of_le (by omega : t.length ≤ pos)]

/-- `apply_highlights` from `src/highlight.rs`: no spans means one default
segment; otherwise paint the priority array and emit runs. -/
def apply_highlights {σ : Type} [DecidableEq σ] [Inhabited σ] (t : Str)
    (spans : List (Span σ)) : List (Str × σ) :=
  if spans.isEmpty then [(t, (default : σ))]
  else emitRuns t (buildStyleAt t spans) 0

/-- C7: for every display-content string and every list of highlight
spans, the concatenation of the segments `apply_highlights` returns is
exactly the input string — the segments cover the entire input, left to
right, with no overlap and no gap. -/
theorem apply_highlights_covers_c7 {σ : Type} [DecidableEq σ] [Inhabited σ]
    (t : Str) (spans : List (Span σ)) :
    ((apply_highlights t spans).map Prod.fst).flatten = t := by
  unfold apply_highlights
  split
  · simp
  · have h := emitRuns_join_aux t (buildStyleAt t spans) t.length 0 (by omega)
    simpa using h

/-! ### C1 — incremental filtered indices equal the rebuilt ones -/

/-- The index-collecting scan (the loop body of
`rebuild_filtered_indices`), abstracted over the predicate. -/
def indicesWhere (p : LogLine → Bool) (lines : List LogLine) : List Nat :=
  (lines.foldl
    (fun (acc : List Nat × Nat) line =>
      (if p line then acc.1 ++ [acc.2] else acc.1, acc.2 + 1))
    ([], 0)).1

/-- Matching indices counted from `i`. -/
def indicesFrom (p : LogLine → Bool) (i : Nat) (lines : List LogLine) :
    List Nat :=
  match lines with
  | [] => []
  | l :: ls =>
    if p l then i :: indicesFrom p (i + 1) ls else indicesFrom p (i + 1) ls

theorem indicesWhere_foldl (p : LogLine → Bool) :
    ∀ (lines : List LogLine) (acc : List Nat × Nat),
      lines.foldl
        (fun (acc : List Nat × Nat) line =>
          (if p line then acc.1 ++ [acc.2] else acc.1, acc.2 + 1)) acc
      = (acc.1 ++ indicesFrom p acc.2 lines, acc.2 + lines.length) := by
  intro lines
  induction lines with
  | nil => intro acc; simp [indicesFrom]
  | cons l ls ih =>
    intro acc
    simp only [List.foldl_cons, indicesFrom]
    by_cases hp : p l
    · rw [ih]
      simp [hp]
      omega
    · rw [ih]
      simp [hp]
      omega

theorem indicesWhere_eq_from (p : LogLine → Bool) (lines : List LogLine) :
    indicesWhere p lines = indicesFrom p 0 lines := by
  unfold indicesWhere
  rw [indicesWhere_foldl]
  simp

theorem indicesFrom_append (p : LogLine → Bool) :
    ∀ (ls : List LogLine) (i : Nat) (l : LogLine),
      indicesFrom p i (ls ++ [l])
      = indicesFrom p i ls ++ (if p l then [i + ls.length] else []) := by
  intro ls
  induction ls with
  | nil => intro i l; simp [indicesFrom]
  | cons x xs ih =>
    intro i l
    simp only [List.cons_append, indicesFrom, List.append_eq]
    rw [ih (i + 1) l]
    by_cases hx : p x <;> by_cases hl : p l <;>
      simp [hx, hl, Nat.add_assoc, Nat.add_comm, Nat.add_left_comm]

/-- `computedIndices` is the abstract scan with the state's predicate. -/
theorem computedIndices_eq (s : GuiAppState) :
    s.computedIndices = indicesWhere s.matches_filter s.lines := rfl

/-- `matches_filter` only reads `filter_state`. -/
theorem matches_filter_congr (s s' : GuiAppState)
    (h : s'.filter_state = s.filter_state) (l : LogLine) :
    s'.matches_filter l = s.matches_filter l := by
  unfold GuiAppState.matches_filter GuiAppState.get_display_content
  rw [h]

/-- The fields of `add_line_with_update` that the filtered-index invariant
depends on. -/
theorem add_line_with_update_fields (s : GuiAppState) (c : Str) (now : Nat)
    (u : Bool) :
    (s.add_line_with_update c now u).lines
        = s.lines ++ [{ content := GuiAppState.guiTrimContent c, timestamp := now }] ∧
    (s.add_line_with_update c now u).filtered_indices
        = (if s.matches_filter { content := GuiAppState.guiTrimContent c, timestamp := now }
            then s.filtered_indices ++ [s.lines.length]
            else s.filtered_indices) ∧
    (s.add_line_with_update c now u).filter_state = s.filter_state := by
  unfold GuiAppState.add_line_with_update
  simp only [apply_ite GuiAppState.lines, apply_ite GuiAppState.filtered_indices,
    apply_ite GuiAppState.filter_state, apply_ite GuiAppState.line_offsets,
    apply_ite GuiAppState.line_heights, apply_ite GuiAppState.last_update_time,
    apply_ite GuiAppState.max_content_width]
  split_ifs <;> simp_all

theorem add_line_invariant_step (s : GuiAppState) (c : Str) (now : Nat)
    (u : Bool) (h : s.filtered_indices = s.computedIndices) :
    (s.add_line_with_update c now u).filtered_indices
      = (s.add_line_with_update c now u).computedIndices := by
  obtain ⟨hlines, hfilt, hfs⟩ := add_line_with_update_fields s c now u
  have hpred : (s.add_line_with_update c now u).matches_filter
      = s.matches_filter :=
    funext (fun l => matches_filter_congr s _ hfs l)
  rw [computedIndices_eq, hpred, hlines, hfilt]
  rw [indicesWhere_eq_from, indicesFrom_append, ← indicesWhere_eq_from]
  rw [computedIndices_eq] at h
  by_cases hp : s.matches_filter { content := GuiAppState.guiTrimContent c, timestamp := now }
  · simp [hp, h]
  · simp [hp, h]

/-- Fold a sequence of `(content, now, update_time)` appends into the
state. -/
def addAll (s : GuiAppState) (ops : List (Str × Nat × Bool)) : GuiAppState :=
  ops.foldl (fun s o => s.add_line_with_update o.1 o.2.1 o.2.2) s

theorem addAll_invariant (ops : List (Str × Nat × Bool)) :
    ∀ (s : GuiAppState), s.filtered_indices = s.computedIndices →
      (addAll s ops).filtered_indices = (addAll s ops).computedIndices := by
  induction ops with
  | nil => intro s h; simpa [addAll] using h
  | cons o rest ih =>
    intro s h
    simp only [addAll, List.foldl_cons]
    exact ih _ (add_line_invariant_step s o.1 o.2.1 o.2.2 h)

/-- `rebuild_filtered_indices` sets `filtered_indices` to the full rescan
and touches it in no later step. -/
theorem rebuild_sets_computed (s : GuiAppState) :
    s.rebuild_filtered_indices.filtered_indices = s.computedIndices := by
  simp [GuiAppState.rebuild_filtered_indices, GuiAppState.reset_line_heights,
    GuiAppState.rebuild_offsets, GuiAppState.clamp_scroll]

/-- The rebuild rescans with the same snapshot: its predicate agrees with
the pre-rebuild one. -/
theorem rebuild_pred_congr (s : GuiAppState) (l : LogLine) :
    s.rebuild_filtered_indices.matches_filter l = s.matches_filter l := by
  apply matches_filter_congr
  simp [GuiAppState.rebuild_filtered_indices, GuiAppState.reset_line_heights,
    GuiAppState.rebuild_offsets, GuiAppState.clamp_scroll]

/-- The empty controller state around a given `FilterState` snapshot
(`GuiAppState::new()` with an empty persisted file, before any ingest). -/
def emptyGui (fs : FilterState) : GuiAppState :=
  { lines := [], filtered_indices := [], filter_state := fs,
    follow_tail := true, show_time := true, wrap_lines := false,
    hide_text := [], filter_text := [], highlight_text := [],
    line_start_text := [], hide_error := none, filter_error := none,
    line_start_error := none, status_message := none, is_connected := false,
    scroll_y := 0, scroll_x := 0, container_height := 600,
    container_width := 800, max_content_width := 0, version := 0,
    line_heights := [], line_offsets := [], last_update_time := none }

/-- C1: after any sequence of appends (from an empty buffer, under any
`FilterState`), rebuilding the filtered index vector from scratch with
`rebuild_filtered_indices` yields exactly the incrementally maintained
`filtered_indices` — both equal the scan
`{i : matches_filter(display content of lines[i])}`. -/
theorem rebuild_matches_incremental_c1 (fs : FilterState)
    (ops : List (Str × Nat × Bool)) :
    (addAll (emptyGui fs) ops).rebuild_filtered_indices.filtered_indices
      = (addAll (emptyGui fs) ops).filtered_indices ∧
    (addAll (emptyGui fs) ops).filtered_indices
      = indicesWhere (addAll (emptyGui fs) ops).matches_filter
          (addAll (emptyGui fs) ops).lines := by
  have hinv := addAll_invariant ops (emptyGui fs)
    (by simp [emptyGui, computedIndices_eq, indicesWhere])
  constructor
  · rw [rebuild_sets_computed, hinv]
  · rw [hinv, computedIndices_eq]

/-! ### C8 — tab inside a bare atom -/

/-- C8: the tokenizer's whitespace arm skips a tab between tokens
(`['\t','a']` and a space-separated pair tokenize as the grammar says),
but the bare-atom loop does not break on a tab, so two bare atoms
separated only by a tab come out as ONE `Pattern` token containing the
tab — contradicting the grammar `bare := [^ \t()&|!]+`. -/
theorem tokenize_tab_c8 :
    tokenize ['a', '\t', 'b'] = Except.ok [Token.pattern ['a', '\t', 'b']] ∧
    tokenize ['a', ' ', 'b']
      = Except.ok [Token.pattern ['a'], Token.pattern ['b']] ∧
    tokenize ['\t', 'a'] = Except.ok [Token.pattern ['a']] := by
  refine ⟨?_, ?_, ?_⟩ <;>
    simp [tokenize.eq_def, bareBreak, List.takeWhile, List.dropWhile,
      Except.map]

/-! ### C2 — `apply_hide` is not idempotent -/

/-- C2 counterexample: with hide pattern `ab` (a literal regex), the input
`aabb` hides to `ab`, but hiding `ab` again yields the empty string —
removal created a new match, so `apply_hide (apply_hide x) ≠ apply_hide x`
on this input. -/
theorem apply_hide_not_idempotent_c2_cex :
    applyHide (some (litRegexC ['a', 'b'])) ['a', 'a', 'b', 'b']
      = Except.ok ['a', 'b'] ∧
    applyHide (some (litRegexC ['a', 'b'])) ['a', 'b'] = Except.ok [] ∧
    applyHide (some (litRegexC ['a', 'b'])) ['a', 'b']
      ≠ Except.ok ['a', 'b'] := by
  have oA : litRegexC ['a', 'b'] ['a', 'a', 'b', 'b']
      = Except.ok (some { full := (1, 3), groups := [] }) := rfl
  have oB : litRegexC ['a', 'b'] ['b'] = Except.ok none := rfl
  have oC : litRegexC ['a', 'b'] ['a', 'b']
      = Except.ok (some { full := (0, 2), groups := [] }) := rfl
  have hr1 : hideRanges (litRegexC ['a', 'b']) ['a', 'a', 'b', 'b'] 0 []
      = Except.ok [(1, 3)] := by
    rw [hideRanges.eq_def]
    norm_num [oA]
    rw [hideRanges.eq_def]
    norm_num [oB]
  have hr2 : hideRanges (litRegexC ['a', 'b']) ['a', 'b'] 0 []
      = Except.ok [(0, 2)] := by
    rw [hideRanges.eq_def]
    norm_num [oC]
    rw [hideRanges.eq_def]
    norm_num
  have e2 : applyHide (some (litRegexC ['a', 'b'])) ['a', 'b'] = Except.ok [] := by
    rw [applyHide, hr2]
    norm_num [sortByStart, insertByStart, mergeRanges, spliceOut]
  refine ⟨?_, e2, ?_⟩
  · rw [applyHide, hr1]
    norm_num [sortByStart, insertByStart, mergeRanges, spliceOut]
  · rw [e2]
    simp

/-- C2 (amended): re-applying `apply_hide` is the identity whenever the
hide regex no longer matches the first output (in general the splice can
create fresh matches, as the counterexample shows, so unconditional
idempotence fails). -/
theorem apply_hide_idempotent_when_clean_c2 (re : RegexC) (x y : Str)
    (h1 : applyHide (some re) x = Except.ok y)
    (h2 : re y = Except.ok none) :
    applyHide (some re) y = Except.ok y := by
  have hr : hideRanges re y 0 [] = Except.ok [] := by
    rw [hideRanges.eq_def]
    by_cases hy : 0 < y.length
    · simp [hy, h2]
    · simp [hy]
  rw [applyHide, hr]
  simp

/-- C2 witness: hiding literal `ab` in `cabd` gives `cd`, which the
pattern no longer matches; re-application is the identity there. -/
theorem apply_hide_idempotent_when_clean_c2_witness :
    applyHide (some (litRegexC ['a', 'b'])) ['c', 'd']
      = Except.ok ['c', 'd'] := by
  have h1 : applyHide (some (litRegexC ['a', 'b'])) ['c', 'a', 'b', 'd']
      = Except.ok ['c', 'd'] := by
    have oA : litRegexC ['a', 'b'] ['c', 'a', 'b', 'd']
        = Except.ok (some { full := (1, 3), groups := [] }) := rfl
    have oB : litRegexC ['a', 'b'] ['d'] = Except.ok none := rfl
    have hr : hideRanges (litRegexC ['a', 'b']) ['c', 'a', 'b', 'd'] 0 []
        = Except.ok [(1, 3)] := by
      rw [hideRanges.eq_def]
      norm_num [oA]
      rw [hideRanges.eq_def]
      norm_num [oB]
    rw [applyHide, hr]
    norm_num [sortByStart, insertByStart, mergeRanges, spliceOut]
  exact apply_hide_idempotent_when_clean_c2 (litRegexC ['a', 'b'])
    ['c', 'a', 'b', 'd'] ['c', 'd'] h1 rfl

/-! ### C3 — the two display-content derivations differ -/

/-- C3 (code-bug evidence): with hide pattern `a` on input `aXaab`,
`FilterState::apply_hide` (which advances the cursor exactly past each
match) removes all three `a`s and returns `Xb`, while
`App::get_display_content` — whose cursor update reads
`search_start += search_start + full_match.end().max(1)`, doubling the
cursor — misses the match at byte 3 and returns `Xab`.  The two
derivations therefore disagree. -/
theorem display_content_divergence_c3 :
    applyHide (some (litRegexC ['a'])) ['a', 'X', 'a', 'a', 'b']
      = Except.ok ['X', 'b'] ∧
    appGetDisplayContent (some (litRegexC ['a'])) ['a', 'X', 'a', 'a', 'b']
      = ['X', 'a', 'b'] ∧
    Except.ok (appGetDisplayContent (some (litRegexC ['a']))
        ['a', 'X', 'a', 'a', 'b'])
      ≠ applyHide (some (litRegexC ['a'])) ['a', 'X', 'a', 'a', 'b'] := by
  have oA : litRegexC ['a'] ['a', 'X', 'a', 'a', 'b']
      = Except.ok (some { full := (0, 1), groups := [] }) := rfl
  have oB : litRegexC ['a'] ['X', 'a', 'a', 'b']
      = Except.ok (some { full := (1, 2), groups := [] }) := rfl
  have oC : litRegexC ['a'] ['a', 'b']
      = Except.ok (some { full := (0, 1), groups := [] }) := rfl
  have oD : litRegexC ['a'] ['b'] = Except.ok none := rfl
  have hr : hideRanges (litRegexC ['a']) ['a', 'X', 'a', 'a', 'b'] 0 []
      = Except.ok [(0, 1), (2, 3), (3, 4)] := by
    rw [hideRanges.eq_def]
    norm_num [oA]
    rw [hideRanges.eq_def]
    norm_num [oB]
    rw [hideRanges.eq_def]
    norm_num [oC]
    rw [hideRanges.eq_def]
    norm_num [oD]
  have ha : appHideRanges (litRegexC ['a']) ['a', 'X', 'a', 'a', 'b'] 0 []
      = [(0, 1), (2, 3)] := by
    rw [appHideRanges.eq_def]
    norm_num [oA]
    rw [appHideRanges.eq_def]
    norm_num [oB]
    rw [appHideRanges.eq_def]
    norm_num [oD]
  have e1 : applyHide (some (litRegexC ['a'])) ['a', 'X', 'a', 'a', 'b']
      = Except.ok ['X', 'b'] := by
    rw [applyHide, hr]
    norm_num [sortByStart, insertByStart, mergeRanges, spliceOut]
  have e2 : appGetDisplayContent (some (litRegexC ['a']))
      ['a', 'X', 'a', 'a', 'b'] = ['X', 'a', 'b'] := by
    rw [appGetDisplayContent, ha]
    norm_num [sortByStart, insertByStart, mergeRanges, spliceOut]
  refine ⟨e1, e2, ?_⟩
  rw [e1, e2]
  simp

/-! ### C5 — failed query application -/

/-- A compile oracle that rejects every filter atom. -/
def badCompileB : CompileB := fun _ => Except.error "bad atom"

/-- A compile oracle that rejects every hide regex. -/
def badCompileC : CompileC := fun _ => Except.error "bad hide"

/-- A state whose three query boxes all hold the input `x`. -/
def failState : GuiAppState :=
  { emptyGui FilterState.defaultFS with
    hide_text := ['x'], filter_text := ['x'], highlight_text := ['x'] }

/-- Under the rejecting oracle, parsing the single-atom input `x` fails
with the atom's compile error. -/
theorem parse_x_fails :
    parse_filter badCompileB ['x'] = Except.error "Invalid regex: bad atom" := by
  have htr : trimStr ['x'] = ['x'] := by decide
  have ht : tokenize ['x'] = Except.ok [Token.pattern ['x']] := by
    simp [tokenize.eq_def, bareBreak, List.takeWhile, List.dropWhile,
      Except.map]
  simp [parse_filter, htr, ht, parse_or, parse_and, parse_unary,
    parse_primary, parse_or_rest, parse_and_rest, badCompileB,
    Bind.bind, Except.bind]

/-- C5 counterexample: a failing `apply_highlight` records no error
anywhere — the parse of the highlight box fails, yet afterwards every
error field is still `none` (there is no highlight error field at all),
while the version bump and save still happen.  This refutes the claim
that all three appliers "record the error message against the offending
input field". -/
theorem apply_highlight_silent_failure_c5_cex :
    parse_filter badCompileB ['x'] = Except.error "Invalid regex: bad atom" ∧
    (failState.apply_highlight badCompileB).filter_state.highlight_expr
      = none ∧
    (failState.apply_highlight badCompileB).hide_error = none ∧
    (failState.apply_highlight badCompileB).filter_error = none ∧
    (failState.apply_highlight badCompileB).line_start_error = none ∧
    (failState.apply_highlight badCompileB).status_message = none ∧
    (failState.apply_highlight badCompileB).version = 1 := by
  have htr : (trimStr failState.highlight_text).isEmpty = false := by decide
  refine ⟨parse_x_fails, ?_, ?_, ?_, ?_, ?_, ?_⟩ <;>
    simp [GuiAppState.apply_highlight, GuiAppState.save_state, htr,
      show parse_filter badCompileB failState.highlight_text
          = Except.error "Invalid regex: bad atom" from parse_x_fails] <;>
    simp [failState, emptyGui, FilterState.defaultFS]

/-- C5 (amended): applying a failing query is atomic —
`apply_hide`/`apply_filter` keep the previous compiled artifact and
`filtered_indices`, perform no rebuild (the version is untouched), and
record the error against the offending field; `apply_highlight` also
keeps the artifact and `filtered_indices` and performs no rebuild, but
records no error (the state has no highlight error field) and still
bumps the version and saves. -/
theorem apply_query_failure_atomic_c5 (s : GuiAppState) (cC : CompileC)
    (cB : CompileB) (eh ef el : String)
    (hht : (trimStr s.hide_text).isEmpty = false)
    (hh : cC s.hide_text = Except.error eh)
    (hft : (trimStr s.filter_text).isEmpty = false)
    (hf : parse_filter cB s.filter_text = Except.error ef)
    (hlt : (trimStr s.highlight_text).isEmpty = false)
    (hl : parse_filter cB s.highlight_text = Except.error el) :
    ((s.apply_hide cC).filter_state.hide_regex = s.filter_state.hide_regex ∧
      (s.apply_hide cC).filtered_indices = s.filtered_indices ∧
      (s.apply_hide cC).version = s.version ∧
      (s.apply_hide cC).hide_error = some eh) ∧
    ((s.apply_filter cB).filter_state.filter_expr
        = s.filter_state.filter_expr ∧
      (s.apply_filter cB).filtered_indices = s.filtered_indices ∧
      (s.apply_filter cB).version = s.version ∧
      (s.apply_filter cB).filter_error = some ef) ∧
    ((s.apply_highlight cB).filter_state.highlight_expr
        = s.filter_state.highlight_expr ∧
      (s.apply_highlight cB).filtered_indices = s.filtered_indices ∧
      (s.apply_highlight cB).hide_error = s.hide_error ∧
      (s.apply_highlight cB).filter_error = s.filter_error ∧
      (s.apply_highlight cB).line_start_error = s.line_start_error ∧
      (s.apply_highlight cB).version = s.version + 1) := by
  refine ⟨?_, ?_, ?_⟩
  · simp [GuiAppState.apply_hide, hht, hh]
  · simp [GuiAppState.apply_filter, hft, hf]
  · simp [GuiAppState.apply_highlight, GuiAppState.save_state, hlt, hl]

/-- C5 witness: the amended theorem applied to the concrete state whose
three boxes hold `x`, with both compile oracles failing. -/
theorem apply_query_failure_atomic_c5_witness :
    ((failState.apply_hide badCompileC).filter_state.hide_regex
        = failState.filter_state.hide_regex ∧
      (failState.apply_hide badCompileC).filtered_indices
        = failState.filtered_indices ∧
      (failState.apply_hide badCompileC).version = failState.version ∧
      (failState.apply_hide badCompileC).hide_error = some "bad hide") ∧
    ((failState.apply_filter badCompileB).filter_state.filter_expr
        = failState.filter_state.filter_expr ∧
      (failState.apply_filter badCompileB).filtered_indices
        = failState.filtered_indices ∧
      (failState.apply_filter badCompileB).version = failState.version ∧
      (failState.apply_filter badCompileB).filter_error
        = some "Invalid regex: bad atom") ∧
    ((failState.apply_highlight badCompileB).filter_state.highlight_expr
        = failState.filter_state.highlight_expr ∧
      (failState.apply_highlight badCompileB).filtered_indices
        = failState.filtered_indices ∧
      (failState.apply_highlight badCompileB).hide_error
        = failState.hide_error ∧
      (failState.apply_highlight badCompileB).filter_error
        = failState.filter_error ∧
      (failState.apply_highlight badCompileB).line_start_error
        = failState.line_start_error ∧
      (failState.apply_highlight badCompileB).version
        = failState.version + 1) :=
  apply_query_failure_atomic_c5 failState badCompileC badCompileB
    "bad hide" "Invalid regex: bad atom" "Invalid regex: bad atom"
    (by decide) rfl (by decide) parse_x_fails (by decide) parse_x_fails

end Tuilog
